import Mathlib

set_option maxHeartbeats 1000000
set_option maxRecDepth 4000

/-!
Shallow embedding of the hackgvl slack events bot.

The bot polls an events API, builds one or more bounded-length Slack messages
per week, and reconciles them against previously posted messages stored in a
small SQLite database.  The embedding below follows `src/bot.py`,
`src/server.py` and `src/database.py`; the message sizing utilities of
`message_builder.py` are absent from the source tree (only
`tests/test_message_builder.py` imports them) and are modelled from the spec.
-/

namespace SlackEventsBot

/-! ### Message builder (`message_builder.py`, modelled from the spec) -/

/-- Modelled from the spec: the maximum characters allowed in one rendered
Slack message chunk (`MAX_MESSAGE_CHARACTER_LENGTH` of the missing
`message_builder.py`).  The spec fixes the budget as a constant of a few
thousand characters; 3000 is the value pinned by the borderline sizing test
(a fragment total of 2949 characters must fit without a header and spill over
once a header is attached). -/
def MAX_MESSAGE_CHARACTER_LENGTH : Nat := 3000

/-- Modelled from the spec: `build_header` of the missing `message_builder.py`.
Header text for chunk `seq` of `total` of a week, matching the literal header
asserted by the tests, for example
"HackGreenville Events for the week of October 22 - 1 of 1". -/
def build_header (weekLabel : String) (seq total : Nat) : String :=
  "HackGreenville Events for the week of " ++ weekLabel ++ " - " ++
    toString seq ++ " of " ++ toString total

/-- Length in characters of the header of chunk `seq` of `total`. -/
def headerLen (weekLabel : String) (seq total : Nat) : Nat :=
  (build_header weekLabel seq total).length

/-- Modelled from the spec: the greedy accumulation inside `chunk_messages` of
the missing `message_builder.py`.  Fragments are added to the current chunk
while the rendered text stays strictly below the budget; otherwise the current
chunk is emitted and a new chunk is started with its own header.  `hlen seq`
is the header length of chunk number `seq`; `cur` is the rendered length of
the chunk under construction.  Returns the rendered lengths of all chunks. -/
def chunkLoop (hlen : Nat → Nat) : List Nat → Nat → Nat → List Nat
  | [], _seq, cur => [cur]
  | f :: rest, seq, cur =>
    if cur + f < MAX_MESSAGE_CHARACTER_LENGTH then
      chunkLoop hlen rest seq (cur + f)
    else
      cur :: chunkLoop hlen rest (seq + 1) (hlen (seq + 1) + f)

/-- All chunk lengths for the given fragment lengths, starting from chunk 1,
whose header is already counted in the initial accumulator. -/
def chunkLengths (hlen : Nat → Nat) (frags : List Nat) : List Nat :=
  chunkLoop hlen frags 1 (hlen 1)

/-- Modelled from the spec: the verification loop of `total_messages_needed`
of the missing `message_builder.py`.  Starting from a candidate count,
re-chunk with headers rendered at that candidate and retry with
`candidate + 1` while the fragments do not fit in the candidate number of
chunks (the boundary chunk would otherwise overflow once its header is
attached).  Fuel bounds the retries; `fragments.length + 1` retries suffice
because greedy chunking never produces more chunks than fragments. -/
def sizeLoop (weekLabel : String) (frags : List Nat) : Nat → Nat → Nat
  | 0, candidate => candidate
  | fuel + 1, candidate =>
    if (chunkLengths (fun seq => headerLen weekLabel seq candidate) frags).length
        ≤ candidate
    then candidate
    else sizeLoop weekLabel frags fuel (candidate + 1)

/-- Modelled from the spec: `total_messages_needed` of the missing
`message_builder.py`: the naive greedy count ignoring headers, corrected by
the fixed point that accounts for the final header length (which depends on
the digit count of the total itself). -/
def total_messages_needed (weekLabel : String) (frags : List Nat) : Nat :=
  sizeLoop weekLabel frags (frags.length + 1)
    (chunkLengths (fun _ => 0) frags).length

/-- Modelled from the spec: `chunk_messages` of the missing
`message_builder.py`: greedy chunking with every chunk stamped with a header
reading `seq of total` where `total` comes from `total_messages_needed`.
Returns the rendered chunk lengths. -/
def chunk_messages (weekLabel : String) (frags : List Nat) : List Nat :=
  chunkLengths
    (fun seq => headerLen weekLabel seq (total_messages_needed weekLabel frags))
    frags

/-! ### Event filter of `parse_events_for_week` (`src/bot.py`) -/

/-- An upstream event as consumed by `parse_events_for_week` in `src/bot.py`:
only the start time and the status drive the in-window filter.  Times are
UTC instants measured in seconds. -/
structure Event where
  time : Int
  status : String
  uuid : String
deriving DecidableEq, Repr

/-- The event statuses accepted by `parse_events_for_week` (`src/bot.py`). -/
def SUPPORTED_STATUSES : List String := ["cancelled", "upcoming", "past"]

/-- Seconds in one day. -/
def SECONDS_PER_DAY : Int := 86400

/-- The skip conditions of the loop body of `parse_events_for_week`
(`src/bot.py`): an event is dropped when
`event.time < week_start or event.time > week_end`, and dropped when its
status is not one of the supported statuses; it is kept otherwise. -/
def eventKept (weekStart weekEnd : Int) (e : Event) : Bool :=
  !(decide (e.time < weekStart) || decide (e.time > weekEnd)) &&
    decide (e.status ∈ SUPPORTED_STATUSES)

/-- The in-window filter of `parse_events_for_week` (`src/bot.py`): the week
runs from `week_start` to `week_end = week_start + 7 days`, and the events
surviving the loop are exactly the ones whose fragments enter the built
message text. -/
def parse_events_filter (weekStart : Int) (events : List Event) : List Event :=
  events.filter (eventKept weekStart (weekStart + 7 * SECONDS_PER_DAY))

/-- The rendered message text accumulated by the loop of
`parse_events_for_week` (`src/bot.py`): the week header followed by the text
fragment of every kept event; `gen` stands for `Event.generate_text`. -/
def parse_events_text (header : String) (gen : Event → String)
    (weekStart : Int) (events : List Event) : String :=
  (parse_events_filter weekStart events).foldl
    (fun acc e => acc ++ gen e ++ "\n\n") header

/-! ### Diff engine `post_or_update_messages` (`src/bot.py`) -/

/-- A row of the `messages` table restricted to one week, as read back by
`database.get_messages` for `post_or_update_messages`. -/
structure MessageRecord where
  slack_channel_id : String
  message_timestamp : String
  message : String
deriving DecidableEq, Repr

/-- An outbound Slack Web API call made by `post_or_update_messages`. -/
inductive SlackCall where
  | chat_postMessage (channel text : String)
  | chat_update (channel ts text : String)
deriving DecidableEq, Repr

/-- The channel a Slack call is addressed to. -/
def SlackCall.channel : SlackCall → String
  | .chat_postMessage ch _ => ch
  | .chat_update ch _ _ => ch

/-- The rows of one channel, in store order. -/
def recordsFor (store : List MessageRecord) (ch : String) : List MessageRecord :=
  store.filter fun m => decide (m.slack_channel_id = ch)

/-- The python dict `message_details` built in `post_or_update_messages`:
a lookup from channel to its stored row for the week.  The dict comprehension
keeps the last row when several rows share a channel, and a channel is in
`posted_channels_set` exactly when this lookup succeeds. -/
def message_details (messages : List MessageRecord) (ch : String) :
    Option MessageRecord :=
  (recordsFor messages ch).getLast?

/-- Embeds `database.update_message`: set the stored text of the rows of this week
matching the channel and the Slack timestamp, leaving every other column
unchanged. -/
def update_message_db (store : List MessageRecord) (ch ts text : String) :
    List MessageRecord :=
  store.map fun m =>
    if m.slack_channel_id = ch ∧ m.message_timestamp = ts
    then { m with message := text } else m

/-- Embeds `database.create_message`: insert a fresh row for the week. -/
def create_message_db (store : List MessageRecord) (ch ts text : String) :
    List MessageRecord :=
  store ++ [⟨ch, ts, text⟩]

/-- The body of the per-channel loop of `post_or_update_messages`
(`src/bot.py`).  Decisions read the snapshot of rows fetched on entry, while
writes go to the threaded store; `postTs` is the timestamp Slack returns from
`chat_postMessage` for a channel. -/
def post_or_update_channel (snapshot : List MessageRecord) (text : String)
    (postTs : String → String) (store : List MessageRecord) (ch : String) :
    List SlackCall × List MessageRecord :=
  match message_details snapshot ch with
  | some r =>
    if r.message = text then ([], store)
    else ([SlackCall.chat_update ch r.message_timestamp text],
          update_message_db store ch r.message_timestamp text)
  | none =>
    ([SlackCall.chat_postMessage ch text],
     create_message_db store ch (postTs ch) text)

/-- The channel loop of `post_or_update_messages` (`src/bot.py`): walk the
subscribed channels, collecting the Slack calls made and threading the
database writes through the accumulator. -/
def post_or_update_go (snapshot : List MessageRecord) (text : String)
    (postTs : String → String) :
    List String → List SlackCall × List MessageRecord →
      List SlackCall × List MessageRecord
  | [], acc => acc
  | ch :: rest, acc =>
    let step := post_or_update_channel snapshot text postTs acc.2 ch
    post_or_update_go snapshot text postTs rest (acc.1 ++ step.1, step.2)

/-- Embeds `post_or_update_messages` (`src/bot.py`): iterate over the subscribed
channels, collecting the Slack calls made and threading the database writes
through.  The input `messages` is the snapshot of this week in the store,
fetched once on entry and used for all decisions. -/
def post_or_update_messages (channels : List String)
    (messages : List MessageRecord) (text : String) (postTs : String → String) :
    List SlackCall × List MessageRecord :=
  post_or_update_go messages text postTs channels ([], messages)

/-- The Slack calls `post_or_update_messages` makes for one channel; they
depend only on the snapshot, never on the threaded store. -/
def channelCalls (snapshot : List MessageRecord) (text : String) (ch : String) :
    List SlackCall :=
  match message_details snapshot ch with
  | some r =>
    if r.message = text then []
    else [SlackCall.chat_update ch r.message_timestamp text]
  | none => [SlackCall.chat_postMessage ch text]

/-- The calls addressed to one channel. -/
def callsFor (calls : List SlackCall) (ch : String) : List SlackCall :=
  calls.filter fun c => decide (c.channel = ch)

/-! ### Cooldown gate (`src/server.py`, `src/database.py`) -/

/-- The `cooldowns` table seen through its UNIQUE(accessor, resource)
constraint: a lookup from accessor and resource to the stored expiry instant.
Instants are measured in minutes to match `create_cooldown`. -/
def CooldownStore : Type := String → String → Option Int

/-- Embeds `database.get_cooldown_expiry_time`: the stored expiry, or `none` when no
restriction was ever put in place. -/
def get_cooldown_expiry_time (store : CooldownStore)
    (accessor resource : String) : Option Int :=
  store accessor resource

/-- Embeds `database.create_cooldown`: upsert the row for (accessor, resource) with
expiry `now + cooldown_minutes`. -/
def create_cooldown (store : CooldownStore) (accessor resource : String)
    (cooldown_minutes now : Int) : CooldownStore :=
  fun a r =>
    if a = accessor ∧ r = resource then some (now + cooldown_minutes)
    else store a r

/-- Embeds `server.check_api_on_cooldown`: a missing team domain counts as on
cooldown; otherwise the accessor is on cooldown unless no expiry is stored or
the stored expiry is strictly in the past. -/
def check_api_on_cooldown (store : CooldownStore) (now : Int)
    (team_domain : Option String) : Bool :=
  match team_domain with
  | none => true
  | some d =>
    match get_cooldown_expiry_time store d "check_api" with
    | none => false
    | some expiry => if now > expiry then false else true

/-- Embeds `server.update_check_api_cooldown`: create a 15 minute cooldown for the
accessor after permitted access, doing nothing when the team domain is
missing. -/
def update_check_api_cooldown (store : CooldownStore) (now : Int)
    (team_domain : Option String) : CooldownStore :=
  match team_domain with
  | none => store
  | some d => create_cooldown store d "check_api" 15 now

/-- Outcome of the rate limiting middleware for a `/check_api` request:
either the plain-text throttle response is returned without touching the
pipeline, or the request proceeds to `call_next` and the pipeline runs. -/
inductive RateLimitOutcome where
  | throttled
  | proceeded
deriving DecidableEq, Repr

/-- The `/check_api` branch of the `rate_limit_check_api` middleware
(`src/server.py`): throttle when on cooldown, otherwise record the new
cooldown and let the request through to the pipeline.  `team_domain` is the
accessor id extracted from the request body, `none` when extraction failed. -/
def rate_limit_check_api (store : CooldownStore) (now : Int)
    (team_domain : Option String) : RateLimitOutcome × CooldownStore :=
  if check_api_on_cooldown store now team_domain
  then (RateLimitOutcome.throttled, store)
  else (RateLimitOutcome.proceeded, update_check_api_cooldown store now team_domain)

/-! ### Channel subscription commands (`src/bot.py`, `src/database.py`) -/

/-- Embeds `database.add_channel`: INSERT into `channels`; the UNIQUE constraint on
`slack_channel_id` raises `sqlite3.IntegrityError` on a duplicate, modelled
by `Except.error`. -/
def db_add_channel (channels : List String) (ch : String) :
    Except Unit (List String) :=
  if ch ∈ channels then Except.error () else Except.ok (channels ++ [ch])

/-- Embeds `database.remove_channel`: DELETE FROM `channels`; deleting a row that
does not exist is a successful no-op in SQLite, so this never raises. -/
def db_remove_channel (channels : List String) (ch : String) :
    Except Unit (List String) :=
  Except.ok (channels.filter fun c => decide (c ≠ ch))

/-- The `/add_channel` handler (`src/bot.py`): ack success, or the duplicate
message when the insert violates the UNIQUE constraint. -/
def add_channel_command (channels : List String) (ch : String) :
    List String × String :=
  match db_add_channel channels ch with
  | Except.ok cs => (cs, "Added channel to slack events bot 👍")
  | Except.error _ =>
    (channels, "slack events bot has already been activated for this channel")

/-- The `/remove_channel` handler (`src/bot.py`): ack success, with a branch
for `sqlite3.IntegrityError` that the DELETE can never raise. -/
def remove_channel_command (channels : List String) (ch : String) :
    List String × String :=
  match db_remove_channel channels ch with
  | Except.ok cs => (cs, "Removed channel from slack events bot 👍")
  | Except.error _ =>
    (channels, "slack events bot is not activated for this channel")

/-! ### Retention sweep (`src/database.py`) -/

/-- Embeds `database.delete_old_messages`: with the clock at `now` (seconds), delete
the message rows whose Slack timestamp is below `now - days_back` days and
the cooldown rows whose expiry is below that same cutoff; every other row is
retained.  Returns the retained message timestamps and cooldown expiries. -/
def delete_old_messages (now days_back : Int)
    (message_timestamps cooldown_expiries : List Int) : List Int × List Int :=
  (message_timestamps.filter fun ts =>
     !decide (ts < now - days_back * SECONDS_PER_DAY),
   cooldown_expiries.filter fun e =>
     !decide (e < now - days_back * SECONDS_PER_DAY))

/-! ## Theorems -/

/-- C1 counterexample: the loop of `parse_events_for_week` keeps an event
whose start time is exactly `week_end = week_start + 7 days`, although the
claimed half-open window `[week_start, week_end)` excludes it. -/
theorem parse_events_filter_week_end_kept :
    parse_events_filter 0 [⟨604800, "upcoming", "boundary"⟩]
        = [⟨604800, "upcoming", "boundary"⟩] ∧
    ¬ ((604800 : Int) < 0 + 7 * SECONDS_PER_DAY) := by
  decide

/-- C1 (amended): the in-window filter of `parse_events_for_week` keeps
exactly those events whose start time t satisfies
`week_start <= t <= week_end` (closed interval, `week_end` included) and
whose status is one of upcoming, past, cancelled; every other event is
excluded from the built message. -/
theorem parse_events_filter_spec (weekStart : Int) (events : List Event)
    (e : Event) :
    e ∈ parse_events_filter weekStart events ↔
      e ∈ events ∧ weekStart ≤ e.time ∧
        e.time ≤ weekStart + 7 * SECONDS_PER_DAY ∧
        e.status ∈ SUPPORTED_STATUSES := by
  simp only [parse_events_filter, List.mem_filter, eventKept, Bool.and_eq_true,
    Bool.not_eq_true', Bool.or_eq_false_iff, decide_eq_false_iff_not,
    decide_eq_true_eq, not_lt, and_assoc]

/-- C3: for the borderline fragment-length list taken from the sizing
regression test, `total_messages_needed` returns exactly 2: the naive count
of 1 is rejected once the header is accounted for, and the fixed point
reconverges at 2. -/
theorem total_messages_needed_borderline :
    total_messages_needed "October 22" [463, 311, 397, 507, 456, 463, 352]
      = 2 := by
  decide

/-- C4: `total_messages_needed` applied to the empty fragment list returns
exactly 1 for every week: a week with zero in-window events still yields a
single placeholder chunk. -/
theorem total_messages_needed_empty (weekLabel : String) :
    total_messages_needed weekLabel [] = 1 := by
  simp [total_messages_needed, sizeLoop, chunkLengths, chunkLoop]

/-- C8: evaluating the subscription handlers at the duplicate states.
Unsubscribing a channel that is not subscribed acks with the plain success
message because the SQL DELETE never raises `sqlite3.IntegrityError`, so the
"not activated" branch of the handler is unreachable; subscribing a channel
that is already subscribed does surface the duplicate-state message.  The
stored channel set is unaffected in both cases. -/
theorem remove_channel_missing_acks_success :
    remove_channel_command [] "C123"
        = ([], "Removed channel from slack events bot 👍") ∧
    add_channel_command ["C123"] "C123"
        = (["C123"],
           "slack events bot has already been activated for this channel") := by
  constructor <;> rfl

/-- C9 counterexample: a cooldown whose expiry is in the past (50 days before
`now`) but within the 90 day horizon is retained by the sweep, although the
claim says every cooldown past expiry is deleted. -/
theorem delete_old_messages_keeps_recent_expired_cooldown :
    (4320000 : Int) < 8640000 ∧
    (delete_old_messages 8640000 90 [] [4320000]).2 = [4320000] := by
  decide

/-- C9 (amended): the retention sweep deletes every message record whose
timestamp is older than the configured horizon (`days_back` days before
`now`, default 90) and retains every message record within the horizon, and
deletes every cooldown record whose expiry is older than that same horizon,
retaining cooldowns that expired more recently. -/
theorem delete_old_messages_spec (now days_back : Int)
    (message_timestamps cooldown_expiries : List Int) (t : Int) :
    (t ∈ (delete_old_messages now days_back message_timestamps
            cooldown_expiries).1 ↔
      t ∈ message_timestamps ∧ now - days_back * SECONDS_PER_DAY ≤ t) ∧
    (t ∈ (delete_old_messages now days_back message_timestamps
            cooldown_expiries).2 ↔
      t ∈ cooldown_expiries ∧ now - days_back * SECONDS_PER_DAY ≤ t) := by
  simp [delete_old_messages, List.mem_filter, not_lt]

/-- C10: a manual `/check_api` request whose body yields no extractable
team domain is treated as on cooldown: the middleware returns the throttle
response with the store untouched (so the pipeline is not invoked), and
`update_check_api_cooldown` creates no record for it either. -/
theorem rate_limit_check_api_missing_team_domain (store : CooldownStore)
    (now : Int) :
    rate_limit_check_api store now none = (RateLimitOutcome.throttled, store) ∧
    update_check_api_cooldown store now none = store := by
  exact ⟨rfl, rfl⟩

/-- C7: a manual `/check_api` trigger for an accessor is permitted if and
only if no unexpired cooldown record exists for (accessor, "check_api") at
the time of the request (a stored expiry `e` is expired exactly when
`e < now`); on a permitted trigger a cooldown expiring 15 minutes later is
recorded, and any subsequent trigger by the same accessor at or before that
expiry receives the throttle response with the store untouched, so the
pipeline is not invoked again. -/
theorem rate_limit_check_api_gate (store : CooldownStore) (now : Int)
    (d : String) :
    ((rate_limit_check_api store now (some d)).1 = RateLimitOutcome.proceeded ↔
      ∀ e, get_cooldown_expiry_time store d "check_api" = some e → e < now) ∧
    ((rate_limit_check_api store now (some d)).1 = RateLimitOutcome.proceeded →
      get_cooldown_expiry_time (rate_limit_check_api store now (some d)).2 d
          "check_api" = some (now + 15) ∧
      ∀ now2, now2 ≤ now + 15 →
        rate_limit_check_api (rate_limit_check_api store now (some d)).2 now2
            (some d)
          = (RateLimitOutcome.throttled,
             (rate_limit_check_api store now (some d)).2)) := by
  cases hlook : store d "check_api" with
  | none =>
    constructor
    · constructor
      · intro _ e2 he2
        rw [get_cooldown_expiry_time] at he2
        rw [hlook] at he2
        cases he2
      · intro _
        simp [rate_limit_check_api, check_api_on_cooldown,
          get_cooldown_expiry_time, hlook]
    · intro _
      constructor
      · simp [rate_limit_check_api, check_api_on_cooldown,
          get_cooldown_expiry_time, update_check_api_cooldown,
          create_cooldown, hlook]
      · intro now2 h2
        have hcool : ¬ now2 > now + 15 := by omega
        simp [rate_limit_check_api, check_api_on_cooldown,
          get_cooldown_expiry_time, update_check_api_cooldown,
          create_cooldown, hlook, hcool]
  | some e =>
    by_cases hpast : now > e
    · constructor
      · constructor
        · intro _ e2 he2
          rw [get_cooldown_expiry_time] at he2
          rw [hlook] at he2
          cases he2
          omega
        · intro _
          simp [rate_limit_check_api, check_api_on_cooldown,
            get_cooldown_expiry_time, hlook, hpast]
      · intro _
        constructor
        · simp [rate_limit_check_api, check_api_on_cooldown,
            get_cooldown_expiry_time, update_check_api_cooldown,
            create_cooldown, hlook, hpast]
        · intro now2 h2
          have hcool : ¬ now2 > now + 15 := by omega
          simp [rate_limit_check_api, check_api_on_cooldown,
            get_cooldown_expiry_time, update_check_api_cooldown,
            create_cooldown, hlook, hpast, hcool]
    · constructor
      · constructor
        · intro h
          simp [rate_limit_check_api, check_api_on_cooldown,
            get_cooldown_expiry_time, hlook, hpast] at h
        · intro h
          have he : e < now := h e (by rw [get_cooldown_expiry_time, hlook])
          omega
      · intro h
        simp [rate_limit_check_api, check_api_on_cooldown,
          get_cooldown_expiry_time, hlook, hpast] at h

/-- C7 witness: in an empty cooldown store, accessor "hackgreenville" is
permitted at time 0, a cooldown expiring at minute 15 is recorded, and a
second trigger at minute 10 is throttled. -/
theorem rate_limit_check_api_gate_witness :
    (rate_limit_check_api (fun _ _ => none) 0 (some "hackgreenville")).1
        = RateLimitOutcome.proceeded ∧
    get_cooldown_expiry_time
        (rate_limit_check_api (fun _ _ => none) 0 (some "hackgreenville")).2
        "hackgreenville" "check_api" = some (0 + 15) ∧
    (rate_limit_check_api
        (rate_limit_check_api (fun _ _ => none) 0 (some "hackgreenville")).2
        10 (some "hackgreenville"))
      = (RateLimitOutcome.throttled,
         (rate_limit_check_api (fun _ _ => none) 0 (some "hackgreenville")).2) := by
  have h := rate_limit_check_api_gate (fun _ _ => none) 0 "hackgreenville"
  have hp : (rate_limit_check_api (fun _ _ => none) 0
      (some "hackgreenville")).1 = RateLimitOutcome.proceeded :=
    h.1.mpr (by intro e he; cases he)
  exact ⟨hp, (h.2 hp).1, (h.2 hp).2 10 (by omega)⟩

/-- The greedy accumulation keeps every emitted chunk strictly below the
budget as long as the running chunk is below the budget and every remaining
fragment fits together with the header of any chunk it could start. -/
theorem chunkLoop_bounded (hlen : Nat → Nat) :
    ∀ (frags : List Nat) (seq cur : Nat),
      cur < MAX_MESSAGE_CHARACTER_LENGTH →
      (∀ f ∈ frags, ∀ s, seq < s → s ≤ seq + frags.length →
        hlen s + f < MAX_MESSAGE_CHARACTER_LENGTH) →
      ∀ c ∈ chunkLoop hlen frags seq cur, c < MAX_MESSAGE_CHARACTER_LENGTH := by
  intro frags
  induction frags with
  | nil =>
    intro seq cur hcur _ c hc
    simp only [chunkLoop, List.mem_singleton] at hc
    exact hc ▸ hcur
  | cons f rest ih =>
    intro seq cur hcur hfit c hc
    rw [chunkLoop] at hc
    by_cases hadd : cur + f < MAX_MESSAGE_CHARACTER_LENGTH
    · rw [if_pos hadd] at hc
      refine ih seq (cur + f) hadd ?_ c hc
      intro g hg s hs1 hs2
      exact hfit g (List.mem_cons_of_mem f hg) s hs1
        (by simp only [List.length_cons]; omega)
    · rw [if_neg hadd] at hc
      rcases List.mem_cons.mp hc with hceq | hc2
      · exact hceq ▸ hcur
      · refine ih (seq + 1) (hlen (seq + 1) + f) ?_ ?_ c hc2
        · exact hfit f (List.mem_cons_self f rest) (seq + 1) (by omega)
            (by simp only [List.length_cons]; omega)
        · intro g hg s hs1 hs2
          exact hfit g (List.mem_cons_of_mem f hg) s (by omega)
            (by simp only [List.length_cons]; omega)

/-- C2 counterexample: a single fragment of 3000 characters yields a chunk
of rendered length 3057, which is not strictly below
`MAX_MESSAGE_CHARACTER_LENGTH`. -/
theorem chunk_messages_overflow :
    (3057 : Nat) ∈ chunk_messages "October 22" [3000] ∧
    ¬ (3057 < MAX_MESSAGE_CHARACTER_LENGTH) := by
  decide

/-- C2 (amended): for every non-empty list of fragments each of which fits
into a chunk together with the header that chunk could carry (fragment
length plus header length strictly below the budget for every chunk number
that can occur), every chunk produced by `chunk_messages`, its header
included, has rendered text length strictly less than
`MAX_MESSAGE_CHARACTER_LENGTH`. -/
theorem chunk_messages_bounded (weekLabel : String) (frags : List Nat)
    (hne : frags ≠ [])
    (hfit : ∀ f ∈ frags, ∀ seq, seq ≤ frags.length + 1 →
      headerLen weekLabel seq (total_messages_needed weekLabel frags) + f
        < MAX_MESSAGE_CHARACTER_LENGTH) :
    ∀ c ∈ chunk_messages weekLabel frags,
      c < MAX_MESSAGE_CHARACTER_LENGTH := by
  have hhead1 :
      headerLen weekLabel 1 (total_messages_needed weekLabel frags)
        < MAX_MESSAGE_CHARACTER_LENGTH := by
    rcases List.exists_mem_of_ne_nil frags hne with ⟨f0, hf0⟩
    have := hfit f0 hf0 1 (by omega)
    omega
  refine chunkLoop_bounded _ frags 1 _ hhead1 ?_
  intro g hg s hs1 hs2
  exact hfit g hg s (by omega)

/-- C2 witness: the borderline fragment list is non-empty, each of its
fragments fits alongside any header, and its concrete first chunk of length
2654 is strictly below the budget. -/
theorem chunk_messages_bounded_witness :
    (2654 : Nat) ∈
        chunk_messages "October 22" [463, 311, 397, 507, 456, 463, 352] ∧
    2654 < MAX_MESSAGE_CHARACTER_LENGTH :=
  ⟨by decide,
   chunk_messages_bounded "October 22" [463, 311, 397, 507, 456, 463, 352]
     (by decide) (by decide) 2654 (by decide)⟩

/-- The Slack calls of the per-channel step depend only on the snapshot,
never on the threaded store. -/
theorem post_or_update_channel_calls (snapshot : List MessageRecord)
    (text : String) (postTs : String → String) (store : List MessageRecord)
    (ch : String) :
    (post_or_update_channel snapshot text postTs store ch).1
      = channelCalls snapshot text ch := by
  unfold post_or_update_channel channelCalls
  cases message_details snapshot ch with
  | none => rfl
  | some r => by_cases h : r.message = text <;> simp [h]

/-- Every call emitted for a channel is addressed to that channel. -/
theorem channelCalls_channel (snapshot : List MessageRecord) (text : String)
    (ch : String) :
    ∀ call ∈ channelCalls snapshot text ch, call.channel = ch := by
  intro call hcall
  cases hdet : message_details snapshot ch with
  | none =>
    simp only [channelCalls, hdet, List.mem_singleton] at hcall
    rw [hcall]
    rfl
  | some r =>
    simp only [channelCalls, hdet] at hcall
    by_cases h : r.message = text
    · simp [h] at hcall
    · simp only [if_neg h, List.mem_singleton] at hcall
      rw [hcall]
      rfl

/-- The channel loop collects exactly the per-channel calls, in order. -/
theorem post_or_update_go_calls (snapshot : List MessageRecord) (text : String)
    (postTs : String → String) :
    ∀ (chs : List String) (acc : List SlackCall × List MessageRecord),
      (post_or_update_go snapshot text postTs chs acc).1
        = acc.1 ++ chs.flatMap (channelCalls snapshot text) := by
  intro chs
  induction chs with
  | nil =>
    intro acc
    simp [post_or_update_go]
  | cons ch rest ih =>
    intro acc
    simp only [post_or_update_go]
    rw [ih]
    rw [post_or_update_channel_calls]
    simp [List.flatMap_cons]

/-- Filtering by channel commutes with a map that preserves the channel column. -/
theorem recordsFor_map (f : MessageRecord → MessageRecord)
    (hf : ∀ m, (f m).slack_channel_id = m.slack_channel_id) (ch : String) :
    ∀ store : List MessageRecord,
      recordsFor (store.map f) ch = (recordsFor store ch).map f := by
  intro store
  induction store with
  | nil => rfl
  | cons m rest ih =>
    unfold recordsFor at ih ⊢
    simp only [List.map_cons, List.filter_cons, hf m]
    by_cases hm : m.slack_channel_id = ch
    · simp [hm, ih]
    · simp [hm, ih]

/-- Processing one channel never touches the stored rows of another. -/
theorem post_or_update_channel_store_other (snapshot : List MessageRecord)
    (text : String) (postTs : String → String) (store : List MessageRecord)
    (c ch : String) (hne : c ≠ ch) :
    recordsFor (post_or_update_channel snapshot text postTs store c).2 ch
      = recordsFor store ch := by
  unfold post_or_update_channel
  cases message_details snapshot c with
  | none =>
    simp only [create_message_db]
    unfold recordsFor
    rw [List.filter_append]
    simp [hne]
  | some r =>
    by_cases h : r.message = text
    · simp [h]
    · simp only [h, if_false, update_message_db]
      rw [recordsFor_map _ (by
        intro m
        by_cases hc : m.slack_channel_id = c ∧
            m.message_timestamp = r.message_timestamp <;> simp [hc]) ch store]
      have hid : ∀ m ∈ recordsFor store ch,
          (if m.slack_channel_id = c ∧
              m.message_timestamp = r.message_timestamp
           then { m with message := text } else m) = m := by
        intro m hm
        have hmch : m.slack_channel_id = ch :=
          of_decide_eq_true (List.mem_filter.mp hm).2
        rw [if_neg]
        intro hcon
        exact hne ((hmch ▸ hcon.1 : ch = c)).symm
      rw [List.map_congr_left hid]
      simp

/-- Create case: processing a channel with no stored row appends exactly
one fresh row for it. -/
theorem post_or_update_channel_store_self_none (snapshot : List MessageRecord)
    (text : String) (postTs : String → String) (store : List MessageRecord)
    (ch : String) (hdet : message_details snapshot ch = none) :
    recordsFor (post_or_update_channel snapshot text postTs store ch).2 ch
      = recordsFor store ch ++ [⟨ch, postTs ch, text⟩] := by
  unfold post_or_update_channel
  rw [hdet]
  simp only [create_message_db]
  unfold recordsFor
  rw [List.filter_append]
  simp

/-- No-op case: equal text leaves the store untouched. -/
theorem post_or_update_channel_store_self_eq (snapshot : List MessageRecord)
    (text : String) (postTs : String → String) (store : List MessageRecord)
    (ch : String) (r : MessageRecord)
    (hdet : message_details snapshot ch = some r) (heq : r.message = text) :
    recordsFor (post_or_update_channel snapshot text postTs store ch).2 ch
      = recordsFor store ch := by
  unfold post_or_update_channel
  rw [hdet]
  simp [heq]

/-- Update case: differing text overwrites exactly the text of the rows of
this channel carrying the stored timestamp, leaving every other column and
row unchanged. -/
theorem post_or_update_channel_store_self_ne (snapshot : List MessageRecord)
    (text : String) (postTs : String → String) (store : List MessageRecord)
    (ch : String) (r : MessageRecord)
    (hdet : message_details snapshot ch = some r) (hne : r.message ≠ text) :
    recordsFor (post_or_update_channel snapshot text postTs store ch).2 ch
      = (recordsFor store ch).map fun m =>
          if m.message_timestamp = r.message_timestamp
          then { m with message := text } else m := by
  unfold post_or_update_channel
  rw [hdet]
  simp only [hne, if_false, update_message_db]
  rw [recordsFor_map _ (by
    intro m
    by_cases hc : m.slack_channel_id = ch ∧
        m.message_timestamp = r.message_timestamp <;> simp [hc]) ch store]
  apply List.map_congr_left
  intro m hm
  have hmch : m.slack_channel_id = ch :=
    of_decide_eq_true (List.mem_filter.mp hm).2
  by_cases hts : m.message_timestamp = r.message_timestamp
  · rw [if_pos ⟨hmch, hts⟩, if_pos hts]
  · rw [if_neg (fun hcon => hts hcon.2), if_neg hts]

/-- The channel loop leaves the rows of a channel it never visits alone. -/
theorem post_or_update_go_store_not_mem (snapshot : List MessageRecord)
    (text : String) (postTs : String → String) (ch : String) :
    ∀ (chs : List String) (acc : List SlackCall × List MessageRecord),
      ch ∉ chs →
      recordsFor (post_or_update_go snapshot text postTs chs acc).2 ch
        = recordsFor acc.2 ch := by
  intro chs
  induction chs with
  | nil =>
    intro acc _
    rfl
  | cons c rest ih =>
    intro acc hnotin
    have hc : c ≠ ch := fun h => hnotin (h ▸ List.mem_cons_self c rest)
    simp only [post_or_update_go]
    rw [ih _ (fun h => hnotin (List.mem_cons_of_mem c h))]
    exact post_or_update_channel_store_other snapshot text postTs acc.2 c ch hc

/-- The channel loop applies the per-channel store effect exactly once to
the rows of each visited channel. -/
theorem post_or_update_go_store_mem (snapshot : List MessageRecord)
    (text : String) (postTs : String → String) (ch : String)
    (eff : List MessageRecord → List MessageRecord)
    (heff : ∀ store : List MessageRecord,
      recordsFor (post_or_update_channel snapshot text postTs store ch).2 ch
        = eff (recordsFor store ch)) :
    ∀ (chs : List String) (acc : List SlackCall × List MessageRecord),
      chs.Nodup → ch ∈ chs →
      recordsFor (post_or_update_go snapshot text postTs chs acc).2 ch
        = eff (recordsFor acc.2 ch) := by
  intro chs
  induction chs with
  | nil =>
    intro acc _ hmem
    cases hmem
  | cons c rest ih =>
    intro acc hnodup hmem
    by_cases hc : c = ch
    · subst hc
      have hnotin : c ∉ rest := (List.nodup_cons.mp hnodup).1
      simp only [post_or_update_go]
      rw [post_or_update_go_store_not_mem snapshot text postTs c rest _ hnotin]
      exact heff acc.2
    · have hmem2 : ch ∈ rest := by
        rcases List.mem_cons.mp hmem with h | h
        · exact absurd h.symm hc
        · exact h
      simp only [post_or_update_go]
      rw [ih _ (List.nodup_cons.mp hnodup).2 hmem2]
      rw [post_or_update_channel_store_other snapshot text postTs acc.2 c ch hc]

/-- A flatMap collapses to its only contributing element. -/
theorem flatMap_eq_of_single {α β : Type} (g : α → List β) :
    ∀ (l : List α) (a : α), l.Nodup → a ∈ l →
      (∀ b ∈ l, b ≠ a → g b = []) → l.flatMap g = g a := by
  intro l
  induction l with
  | nil =>
    intro a _ hmem
    cases hmem
  | cons x xs ih =>
    intro a hnodup hmem hother
    by_cases hx : x = a
    · subst hx
      have hnotin := (List.nodup_cons.mp hnodup).1
      have hnil : xs.flatMap g = [] := by
        rw [List.flatMap_eq_nil_iff]
        intro b hb
        exact hother b (List.mem_cons_of_mem _ hb) (fun h => hnotin (h ▸ hb))
      simp [List.flatMap_cons, hnil]
    · have hmem2 : a ∈ xs := by
        rcases List.mem_cons.mp hmem with h | h
        · exact absurd h.symm hx
        · exact h
      rw [List.flatMap_cons, hother x (List.mem_cons_self x xs) hx,
        List.nil_append]
      exact ih a (List.nodup_cons.mp hnodup).2 hmem2
        (fun b hb => hother b (List.mem_cons_of_mem _ hb))

/-- Calls for another channel are filtered away. -/
theorem callsFor_channelCalls_other (snapshot : List MessageRecord)
    (text : String) (c ch : String) (hne : c ≠ ch) :
    callsFor (channelCalls snapshot text c) ch = [] := by
  unfold callsFor
  rw [List.filter_eq_nil_iff]
  intro call hcall
  have := channelCalls_channel snapshot text c call hcall
  simp [this, hne]

/-- Calls for the channel itself are all kept. -/
theorem callsFor_channelCalls_self (snapshot : List MessageRecord)
    (text : String) (ch : String) :
    callsFor (channelCalls snapshot text ch) ch
      = channelCalls snapshot text ch := by
  unfold callsFor
  rw [List.filter_eq_self]
  intro call hcall
  simp [channelCalls_channel snapshot text ch call hcall]

/-- Filtering calls by channel distributes over a flatMap of call lists. -/
theorem callsFor_flatMap (g : String → List SlackCall) (ch : String) :
    ∀ chs : List String,
      callsFor (chs.flatMap g) ch
        = chs.flatMap (fun c => callsFor (g c) ch) := by
  intro chs
  induction chs with
  | nil => rfl
  | cons c rest ih =>
    unfold callsFor at ih ⊢
    simp only [List.flatMap_cons, List.filter_append]
    rw [ih]

/-- The calls of a full reconciliation run addressed to one subscribed
channel are exactly the calls of that channel. -/
theorem callsFor_post_or_update (channels : List String)
    (messages : List MessageRecord) (text : String) (postTs : String → String)
    (ch : String) (hmem : ch ∈ channels) (hnodup : channels.Nodup) :
    callsFor (post_or_update_messages channels messages text postTs).1 ch
      = channelCalls messages text ch := by
  unfold post_or_update_messages
  rw [post_or_update_go_calls]
  simp only [List.nil_append]
  rw [callsFor_flatMap]
  rw [flatMap_eq_of_single _ channels ch hnodup hmem
    (fun c _ hne => callsFor_channelCalls_other messages text c ch hne)]
  exact callsFor_channelCalls_self messages text ch

/-- C5: for every subscribed channel and week, the publish reconciliation
performs exactly one of three actions.  With no stored row for the channel
it posts one new message and appends one new row carrying the timestamp
Slack returned; with a stored row whose text equals the newly rendered text
it makes no external call and leaves the rows unchanged; with a stored row
whose text differs it makes exactly one update call carrying the stored
timestamp and overwrites only the stored text, the stored timestamp staying
unchanged. -/
theorem post_or_update_messages_reconciliation (channels : List String)
    (messages : List MessageRecord) (text : String) (postTs : String → String)
    (ch : String) (hmem : ch ∈ channels) (hnodup : channels.Nodup) :
    (message_details messages ch = none →
      callsFor (post_or_update_messages channels messages text postTs).1 ch
          = [SlackCall.chat_postMessage ch text] ∧
      recordsFor (post_or_update_messages channels messages text postTs).2 ch
          = recordsFor messages ch ++ [⟨ch, postTs ch, text⟩]) ∧
    (∀ r : MessageRecord, message_details messages ch = some r →
      r.message = text →
      callsFor (post_or_update_messages channels messages text postTs).1 ch
          = [] ∧
      recordsFor (post_or_update_messages channels messages text postTs).2 ch
          = recordsFor messages ch) ∧
    (∀ r : MessageRecord, message_details messages ch = some r →
      r.message ≠ text →
      callsFor (post_or_update_messages channels messages text postTs).1 ch
          = [SlackCall.chat_update ch r.message_timestamp text] ∧
      recordsFor (post_or_update_messages channels messages text postTs).2 ch
          = (recordsFor messages ch).map fun m =>
              if m.message_timestamp = r.message_timestamp
              then { m with message := text } else m) := by
  have hcalls :=
    callsFor_post_or_update channels messages text postTs ch hmem hnodup
  refine ⟨?_, ?_, ?_⟩
  · intro hdet
    constructor
    · rw [hcalls]
      simp [channelCalls, hdet]
    · show recordsFor
        (post_or_update_go messages text postTs channels ([], messages)).2 ch = _
      rw [post_or_update_go_store_mem messages text postTs ch
        (fun recs => recs ++ [⟨ch, postTs ch, text⟩])
        (fun store => post_or_update_channel_store_self_none messages text
          postTs store ch hdet)
        channels ([], messages) hnodup hmem]
  · intro r hdet heq
    constructor
    · rw [hcalls]
      simp [channelCalls, hdet, heq]
    · show recordsFor
        (post_or_update_go messages text postTs channels ([], messages)).2 ch = _
      rw [post_or_update_go_store_mem messages text postTs ch id
        (fun store => post_or_update_channel_store_self_eq messages text
          postTs store ch r hdet heq)
        channels ([], messages) hnodup hmem]
      rfl
  · intro r hdet hne
    constructor
    · rw [hcalls]
      simp [channelCalls, hdet, hne]
    · show recordsFor
        (post_or_update_go messages text postTs channels ([], messages)).2 ch = _
      rw [post_or_update_go_store_mem messages text postTs ch
        (fun recs => recs.map fun m =>
          if m.message_timestamp = r.message_timestamp
          then { m with message := text } else m)
        (fun store => post_or_update_channel_store_self_ne messages text
          postTs store ch r hdet hne)
        channels ([], messages) hnodup hmem]

/-- C5 witness: with an empty store and the single subscribed channel "C1",
the run makes exactly one post call for "C1" and persists one row with the
timestamp Slack returned. -/
theorem post_or_update_messages_reconciliation_witness :
    callsFor (post_or_update_messages ["C1"] [] "hello"
        (fun _ => "1700000000.000100")).1 "C1"
      = [SlackCall.chat_postMessage "C1" "hello"] ∧
    recordsFor (post_or_update_messages ["C1"] [] "hello"
        (fun _ => "1700000000.000100")).2 "C1"
      = recordsFor [] "C1" ++ [⟨"C1", "1700000000.000100", "hello"⟩] :=
  (post_or_update_messages_reconciliation ["C1"] [] "hello"
    (fun _ => "1700000000.000100") "C1" (by decide) (by decide)).1 rfl

/-- C6: running the diff-and-publish step twice in a row over the same
store with unchanged rendered text makes zero Slack calls on the second
run: every subscribed channel resolves to a no-op. -/
theorem post_or_update_messages_idempotent (channels : List String)
    (messages : List MessageRecord) (text : String)
    (postTs postTs2 : String → String) (hnodup : channels.Nodup) :
    (post_or_update_messages channels
        (post_or_update_messages channels messages text postTs).2 text
        postTs2).1 = [] := by
  unfold post_or_update_messages
  rw [post_or_update_go_calls]
  simp only [List.nil_append]
  rw [List.flatMap_eq_nil_iff]
  intro ch hch
  cases hdet : message_details messages ch with
  | none =>
    have hrec :
        recordsFor
            (post_or_update_go messages text postTs channels ([], messages)).2
            ch
          = recordsFor messages ch ++ [⟨ch, postTs ch, text⟩] :=
      post_or_update_go_store_mem messages text postTs ch
        (fun recs => recs ++ [⟨ch, postTs ch, text⟩])
        (fun store => post_or_update_channel_store_self_none messages text
          postTs store ch hdet)
        channels ([], messages) hnodup hch
    have hdet2 :
        message_details
            (post_or_update_go messages text postTs channels ([], messages)).2
            ch
          = some ⟨ch, postTs ch, text⟩ := by
      unfold message_details
      rw [hrec]
      exact List.getLast?_concat _
    simp [channelCalls, hdet2]
  | some r =>
    by_cases heq : r.message = text
    · have hrec :
          recordsFor
              (post_or_update_go messages text postTs channels ([], messages)).2
              ch
            = recordsFor messages ch :=
        post_or_update_go_store_mem messages text postTs ch id
          (fun store => post_or_update_channel_store_self_eq messages text
            postTs store ch r hdet heq)
          channels ([], messages) hnodup hch
      have hdet2 :
          message_details
              (post_or_update_go messages text postTs channels ([], messages)).2
              ch
            = some r := by
        unfold message_details
        rw [hrec]
        unfold message_details at hdet
        exact hdet
      simp [channelCalls, hdet2, heq]
    · have hrec :
          recordsFor
              (post_or_update_go messages text postTs channels ([], messages)).2
              ch
            = (recordsFor messages ch).map fun m =>
                if m.message_timestamp = r.message_timestamp
                then { m with message := text } else m :=
        post_or_update_go_store_mem messages text postTs ch
          (fun recs => recs.map fun m =>
            if m.message_timestamp = r.message_timestamp
            then { m with message := text } else m)
          (fun store => post_or_update_channel_store_self_ne messages text
            postTs store ch r hdet heq)
          channels ([], messages) hnodup hch
      have hdet2 :
          message_details
              (post_or_update_go messages text postTs channels ([], messages)).2
              ch
            = some { r with message := text } := by
        unfold message_details
        rw [hrec, List.getLast?_map]
        unfold message_details at hdet
        rw [hdet]
        simp
      simp [channelCalls, hdet2]

/-- C6 witness: one channel, empty store, two successive runs with the same
text: the second run makes no Slack calls. -/
theorem post_or_update_messages_idempotent_witness :
    (post_or_update_messages ["C1"]
        (post_or_update_messages ["C1"] [] "hello"
          (fun _ => "1700000000.000100")).2 "hello"
        (fun _ => "1700000000.000200")).1 = [] :=
  post_or_update_messages_idempotent ["C1"] [] "hello"
    (fun _ => "1700000000.000100") (fun _ => "1700000000.000200") (by decide)

end SlackEventsBot
